import Mathlib

/-!
Shallow embedding of the Game of Life engine of `src/main.py`
(assamite/GameOfLife).  Grids model 2-D numpy integer arrays: a width,
a height and a total cell function; the modelled operations only ever
read in-bounds cells, except where numpy semantics (negative indexing,
slice clipping) route an out-of-bounds index to an in-bounds cell,
which is modelled explicitly.
-/

/-- A 2-D numpy integer array `state` of shape `(w, h)`, indexed as
`state[x, y]`.  Cells outside the bounds are carried by the total
function but are irrelevant to, and untouched by, every modelled
operation. -/
structure Grid where
  w : Nat
  h : Nat
  cells : Nat → Nat → Int

lemma Grid.ext_cells (a b : Grid) (h1 : a.w = b.w) (h2 : a.h = b.h)
    (h3 : a.cells = b.cells) : a = b := by
  cases a; cases b; cases h1; cases h2; cases h3; rfl

/-- Python slice semantics for `l[a:b]` on an axis of length `n`
(step 1): negative endpoints have `n` added, then both are clipped to
`[0, n]`; the result is the list of indices `start ≤ i < stop`. -/
def sliceIdx (n : Nat) (a b : Int) : List Nat :=
  let start : Nat := if a < 0 then (a + n).toNat else min a.toNat n
  let stop : Nat := if b < 0 then (b + n).toNat else min b.toNat n
  List.range' start (stop - start)

/-- Value of `np.sum(state[x-1:x+2, y-1:y+2])`. -/
def windowSum (g : Grid) (x y : Nat) : Int :=
  ((sliceIdx g.w ((x : Int) - 1) ((x : Int) + 2)).map (fun i =>
    ((sliceIdx g.h ((y : Int) - 1) ((y : Int) + 2)).map (fun j =>
      g.cells i j)).sum)).sum

/-- `is_alive` from the source: next value of cell `(x, y)` without
wrapping.  The neighbour count is the 3x3 numpy window sum minus the
cell itself; negative slice endpoints follow Python semantics. -/
def is_alive (x y : Nat) (g : Grid) : Bool :=
  let neighbors_alive : Int := windowSum g x y - g.cells x y
  if g.cells x y == 1 then
    if neighbors_alive < 2 || neighbors_alive > 3 then false else true
  else
    if neighbors_alive == 3 then true else false

/-- The eight neighbour offsets enumerated by the border loop of
`is_alive_wrapping`; the `(0, 0)` offset is skipped by `continue`. -/
def offsets8 : List (Int × Int) :=
  [(-1, -1), (-1, 0), (-1, 1), (0, -1), (0, 1), (1, -1), (1, 0), (1, 1)]

/-- Resolution of a possibly negative numpy integer index on an axis of
length `n`: a negative index has `n` added.  The source only produces
indices in `[-1, n-1]` here, where this is exact numpy behaviour. -/
def npIdx (n : Nat) (k : Int) : Nat :=
  if k < 0 then (k + n).toNat else k.toNat

/-- One read of the border loop of `is_alive_wrapping`: `cx`/`cy` are
reset to `0` when they reach the upper bound, and negative values wrap
through numpy negative indexing. -/
def wrapRead (g : Grid) (x y : Nat) (d : Int × Int) : Int :=
  let cx0 : Int := (x : Int) + d.1
  let cy0 : Int := (y : Int) + d.2
  let cx : Int := if (g.w : Int) ≤ cx0 then 0 else cx0
  let cy : Int := if (g.h : Int) ≤ cy0 then 0 else cy0
  g.cells (npIdx g.w cx) (npIdx g.h cy)

/-- Neighbour count computed by `is_alive_wrapping`: the windowed fast
path for strictly interior cells, the explicit eight-direction loop
otherwise. -/
def wrapNeighborCount (x y : Nat) (g : Grid) : Int :=
  if 0 < x ∧ x < g.w - 1 ∧ 0 < y ∧ y < g.h - 1 then
    windowSum g x y - g.cells x y
  else
    offsets8.foldl (fun acc d => if wrapRead g x y d == 1 then acc + 1 else acc) 0

/-- `is_alive_wrapping` from the source: next value of cell `(x, y)`
with wrapping edges. -/
def is_alive_wrapping (x y : Nat) (g : Grid) : Bool :=
  let neighbors_alive := wrapNeighborCount x y g
  if g.cells x y == 1 then
    if neighbors_alive < 2 || neighbors_alive > 3 then false else true
  else
    if neighbors_alive == 3 then true else false

/-- The `GameOfLife` engine state: `last_state`, `cur_state` and the
`wrapping` flag fixed at construction.  The two buffers never alias in
the source (`__init__` copies, `get_next_state` allocates a fresh
`pending_state` array), so value semantics is faithful. -/
structure GameOfLife where
  last_state : Grid
  cur_state : Grid
  wrapping : Bool

/-- The `alive_func` dispatch chosen in `GameOfLife.__init__`. -/
def alive_func (wrapping : Bool) : Nat → Nat → Grid → Bool :=
  if wrapping then is_alive_wrapping else is_alive

/-- `GameOfLife.__init__`: the initial grid becomes both the last and
the current state. -/
def GameOfLife.init (initial_state : Grid) (wrapping : Bool) : GameOfLife :=
  { last_state := initial_state, cur_state := initial_state, wrapping := wrapping }

/-- The `pending_state` built by `get_next_state`: `np.zeros` of the
current shape, then every in-bounds cell set by the alive function
evaluated on the pre-step current state. -/
def nextGrid (g : Grid) (wrapping : Bool) : Grid :=
  { w := g.w, h := g.h,
    cells := fun x y =>
      if x < g.w ∧ y < g.h then (if alive_func wrapping x y g then 1 else 0) else 0 }

/-- `np.array_equal`: equal shape and elementwise equal values. -/
def Grid.eqOn (a b : Grid) : Bool :=
  a.w == b.w && a.h == b.h &&
    (List.range a.w).all fun x => (List.range a.h).all fun y =>
      a.cells x y == b.cells x y

/-- `GameOfLife.get_next_state`: sets `last_state` to the current
state, replaces `cur_state` by the freshly computed generation and
returns the `np.array_equal` comparison when `check_static` is true,
otherwise `False`. -/
def get_next_state (s : GameOfLife) (check_static : Bool) : GameOfLife × Bool :=
  let last_state := s.cur_state
  let pending_state := nextGrid s.cur_state s.wrapping
  let s2 : GameOfLife :=
    { last_state := last_state, cur_state := pending_state, wrapping := s.wrapping }
  if check_static then (s2, Grid.eqOn last_state pending_state) else (s2, false)

/-- `GameOfLife.run`: a `for` loop over `range(iters)` calling
`get_next_state()` each time (with its default `check_static=True`),
never short-circuiting on a static result. -/
def GameOfLife.run (s : GameOfLife) (iters : Nat) : GameOfLife :=
  (List.range iters).foldl (fun st _ => (get_next_state st true).1) s

/-- Checked numpy index resolution for `state[k]` on an axis of length
`n`: in `[0, n)` taken as is, in `[-n, 0)` mapped to `k + n`, otherwise
an `IndexError` (`none`). -/
def npResolve (n : Nat) (k : Int) : Option Nat :=
  if 0 ≤ k ∧ k < (n : Int) then some k.toNat
  else if -(n : Int) ≤ k ∧ k < 0 then some (k + n).toNat
  else none

/-- Functional write of one cell. -/
def Grid.setCell (g : Grid) (i j : Nat) (v : Int) : Grid :=
  { g with cells := fun a b => if a = i ∧ b = j then v else g.cells a b }

/-- The engine-visible write `self.gol.cur_state[x][y] = v` performed
by `GOLCanvasCells.toggle_cell`, with numpy index semantics: an index
outside `[-n, n)` raises `IndexError` and leaves the grid untouched; a
negative in-range index silently addresses the opposite edge. -/
def setCellChecked (g : Grid) (x y : Int) (v : Int) : Option Grid :=
  match npResolve g.w x, npResolve g.h y with
  | some i, some j => some (g.setCell i j v)
  | _, _ => none

/-- `toggle_cell` restricted to the engine state, on the in-bounds
path: writes `1` when the canvas tile is empty and `0` when it is
filled (the `alive` flag selects the branch); `last_state` is not
touched. -/
def toggle_cell (s : GameOfLife) (x y : Nat) (alive : Bool) : GameOfLife :=
  { s with cur_state := s.cur_state.setCell x y (if alive then 1 else 0) }

/-- `GOLCanvasCells.clear` on the engine grid: every in-bounds cell of
the current generation is set to `0`. -/
def Grid.clearAll (g : Grid) : Grid :=
  { g with cells := fun a b => if a < g.w ∧ b < g.h then 0 else g.cells a b }

/-- `GOLCanvasCells.clear` leaves `last_state` alone and zeroes the
current generation. -/
def GameOfLife.clear (s : GameOfLife) : GameOfLife :=
  { s with cur_state := s.cur_state.clearAll }

/-- Follows the spec's words (comparison object only): the number of
ALIVE cells among the in-bounds positions of the 8-neighbourhood of
`(x, y)`, out-of-grid positions excluded. -/
def specClampedCount (g : Grid) (x y : Nat) : Nat :=
  (offsets8.filter (fun d =>
    let cx : Int := (x : Int) + d.1
    let cy : Int := (y : Int) + d.2
    decide (0 ≤ cx) && decide (cx < (g.w : Int)) && decide (0 ≤ cy) &&
      decide (cy < (g.h : Int)) && (g.cells cx.toNat cy.toNat == 1))).length

/-- Follows the spec's words (comparison object only): the uniform
toroidal reference count, wrapping every offset with non-negative
modulo. -/
def torusCount (g : Grid) (x y : Nat) : Int :=
  (offsets8.map (fun d =>
    g.cells ((((x : Int) + d.1) % (g.w : Int)).toNat)
      ((((y : Int) + d.2) % (g.h : Int)).toNat))).sum

/-- Follows the spec's words (comparison object only): `n` sequential
explicit `step()` calls. -/
def stepN : Nat → GameOfLife → GameOfLife
  | 0, s => s
  | n + 1, s => (get_next_state (stepN n s) true).1

/-- Every in-bounds cell holds `0` or `1`. -/
def Grid.isBinary (g : Grid) : Bool :=
  (List.range g.w).all fun x => (List.range g.h).all fun y =>
    g.cells x y == 0 || g.cells x y == 1

/-- In-bounds alive cells, in row-major (`x` then `y`) order. -/
def aliveCells (g : Grid) : List (Nat × Nat) :=
  ((List.range g.w).map (fun x =>
    (List.range g.h).filterMap (fun y =>
      if g.cells x y == 1 then some (x, y) else none))).flatten

/-- One engine-level operation of the closure considered by the
invariant claims. -/
inductive EngineOp where
  | step : EngineOp
  | set : Nat → Nat → Bool → EngineOp
  | clearOp : EngineOp

/-- Apply one engine operation. -/
def applyOp (s : GameOfLife) : EngineOp → GameOfLife
  | EngineOp.step => (get_next_state s true).1
  | EngineOp.set x y alive => toggle_cell s x y alive
  | EngineOp.clearOp => s.clear

/-- Apply a sequence of engine operations, oldest first. -/
def applyOps (s : GameOfLife) (ops : List EngineOp) : GameOfLife :=
  ops.foldl applyOp s

/-- Horizontal blinker seed on a 5x5 grid: ALIVE at (1,2), (2,2), (3,2). -/
def blinkerH : Grid :=
  { w := 5, h := 5, cells := fun x y =>
      if x < 5 ∧ y < 5 ∧ y = 2 ∧ (x = 1 ∨ x = 2 ∨ x = 3) then 1 else 0 }

/-- Vertical blinker on a 5x5 grid: ALIVE at (2,1), (2,2), (2,3). -/
def blinkerV : Grid :=
  { w := 5, h := 5, cells := fun x y =>
      if x < 5 ∧ y < 5 ∧ x = 2 ∧ (y = 1 ∨ y = 2 ∨ y = 3) then 1 else 0 }

/-- The 5x5 WRAPPING engine seeded with the horizontal blinker. -/
def blinkerS0 : GameOfLife := GameOfLife.init blinkerH true

/-- A 3x3 grid with ALIVE exactly at (1,0), (1,1), (1,2). -/
def clampedBugGrid : Grid :=
  { w := 3, h := 3, cells := fun x y => if x = 1 ∧ y < 3 then 1 else 0 }

/-- A 3x3 all-DEAD grid. -/
def zero3 : Grid := { w := 3, h := 3, cells := fun _ _ => 0 }

/-- A 1x1 engine whose single cell is ALIVE. -/
def one1 : GameOfLife :=
  GameOfLife.init { w := 1, h := 1, cells := fun _ _ => 1 } true

/-- A 5x4 grid with a single ALIVE cell at the bottom-right corner
(4, 3). -/
def cornerGrid : Grid :=
  { w := 5, h := 4, cells := fun x y => if x = 4 ∧ y = 3 then 1 else 0 }

/-- C10: `get_next_state` with `check_static=False` performs exactly
the same transition (same new current and previous generation) as with
`check_static=True`, but always returns `False`. -/
theorem get_next_state_no_check (s : GameOfLife) :
    (get_next_state s false).1 = (get_next_state s true).1 ∧
      (get_next_state s false).2 = false := by
  constructor <;> rfl

/-- C2 (code bug evaluation): on a CLAMPED 3x3 grid with ALIVE exactly
at (1,0), (1,1), (1,2), the DEAD border cell (0,1) has exactly 3 ALIVE
in-bounds neighbours, yet `is_alive` leaves it DEAD: the Python slice
`state[-1:2]` is empty at row 0, so the computed count is `0 - 0`
instead of the in-bounds neighbour count. -/
theorem clamped_border_count_bug :
    specClampedCount clampedBugGrid 0 1 = 3 ∧
      clampedBugGrid.cells 0 1 = 0 ∧
      is_alive 0 1 clampedBugGrid = false ∧
      (nextGrid clampedBugGrid false).cells 0 1 = 0 := by
  refine ⟨by decide, by decide, by decide, by decide⟩

/-- C1 (counterexample): the 1x1 WRAPPING engine whose single cell is
ALIVE has an ALIVE current cell, yet `clear()` immediately followed by
`step()` returns static = true, not false. -/
theorem clear_then_step_nonstatic_cex :
    one1.cur_state.cells 0 0 = 1 ∧
      (get_next_state (GameOfLife.clear one1) true).2 = true := by
  refine ⟨by decide, by decide⟩

/-- C5 (counterexample): on a 3x3 grid the out-of-range write at
`(-1, 0)` does not fail; it silently wraps to the opposite edge and
sets cell (2, 0). -/
theorem set_cell_negative_wrap_cex :
    (setCellChecked zero3 (-1) 0 1).isSome = true ∧
      ((setCellChecked zero3 (-1) 0 1).getD zero3).cells 2 0 = 1 := by
  refine ⟨by decide, by decide⟩

lemma eqOn_eq_true_iff (a b : Grid) :
    Grid.eqOn a b = true ↔
      (a.w = b.w ∧ a.h = b.h ∧
        ∀ x, x < a.w → ∀ y, y < a.h → a.cells x y = b.cells x y) := by
  simp [Grid.eqOn, List.all_eq_true, List.mem_range, and_assoc]

lemma isBinary_iff (g : Grid) :
    g.isBinary = true ↔
      ∀ x, x < g.w → ∀ y, y < g.h → g.cells x y = 0 ∨ g.cells x y = 1 := by
  simp [Grid.isBinary, List.all_eq_true, List.mem_range]

/-- C4: `step()` (that is, `get_next_state` with `check_static=True`)
returns true exactly when the pre-step current generation and the
freshly computed next generation have the same shape and identical
cells. -/
theorem step_static_iff (s : GameOfLife) :
    (get_next_state s true).2 = true ↔
      (s.cur_state.w = (get_next_state s true).1.cur_state.w ∧
        s.cur_state.h = (get_next_state s true).1.cur_state.h ∧
        ∀ x, x < s.cur_state.w → ∀ y, y < s.cur_state.h →
          s.cur_state.cells x y = (get_next_state s true).1.cur_state.cells x y) := by
  exact eqOn_eq_true_iff s.cur_state (nextGrid s.cur_state s.wrapping)

/-- C4 witness: on the all-DEAD 3x3 WRAPPING engine, a step is static. -/
theorem step_static_iff_witness :
    (get_next_state (GameOfLife.init zero3 true) true).2 = true := by
  refine (step_static_iff (GameOfLife.init zero3 true)).mpr ⟨rfl, rfl, ?_⟩
  intro x hx y hy
  have hx3 : x < 3 := hx
  have hy3 : y < 3 := hy
  interval_cases x <;> interval_cases y <;> decide

/-- C7: `run(n)` equals `n` sequential `step()` calls from the same
start state (same final engine state, hence the same current
generation); the fold over `range n` never short-circuits. -/
theorem run_eq_stepN (n : Nat) (s : GameOfLife) :
    GameOfLife.run s n = stepN n s := by
  induction n generalizing s with
  | zero => rfl
  | succ n ih =>
      show (List.range (n + 1)).foldl (fun st _ => (get_next_state st true).1) s = _
      rw [List.range_succ, List.foldl_append]
      have hr : (List.range n).foldl (fun st _ => (get_next_state st true).1) s
          = stepN n s := ih s
      rw [hr]
      rfl

/-- C9: an in-bounds single-cell write changes only that cell of the
current generation and leaves the previous-generation snapshot
unchanged; `clear()` zeroes every in-bounds current-generation cell
and also leaves the previous-generation snapshot unchanged. -/
theorem set_and_clear_frame (s : GameOfLife) (x y : Nat) (alive : Bool)
    (_hx : x < s.cur_state.w) (_hy : y < s.cur_state.h) :
    (toggle_cell s x y alive).last_state = s.last_state ∧
      (toggle_cell s x y alive).cur_state.cells x y = (if alive then 1 else 0) ∧
      (∀ a b : Nat, ¬(a = x ∧ b = y) →
        (toggle_cell s x y alive).cur_state.cells a b = s.cur_state.cells a b) ∧
      (GameOfLife.clear s).last_state = s.last_state ∧
      (∀ a b : Nat, a < s.cur_state.w → b < s.cur_state.h →
        (GameOfLife.clear s).cur_state.cells a b = 0) := by
  refine ⟨rfl, ?_, ?_, rfl, ?_⟩
  · simp [toggle_cell, Grid.setCell]
  · intro a b hab
    simp [toggle_cell, Grid.setCell, hab]
  · intro a b ha hb
    simp [GameOfLife.clear, Grid.clearAll, ha, hb]

/-- C9 witness: frame property checked on the blinker engine at (0, 0). -/
theorem set_and_clear_frame_witness :
    (toggle_cell blinkerS0 0 0 true).last_state = blinkerS0.last_state ∧
      (toggle_cell blinkerS0 0 0 true).cur_state.cells 0 0 = 1 := by
  have h := set_and_clear_frame blinkerS0 0 0 true (by decide) (by decide)
  exact ⟨h.1, by simpa using h.2.1⟩

lemma nextGrid_binary (g : Grid) (b : Bool) : (nextGrid g b).isBinary = true := by
  rw [isBinary_iff]
  intro x hx y hy
  show (if x < g.w ∧ y < g.h then (if alive_func b x y g then 1 else 0) else 0) = 0 ∨
    (if x < g.w ∧ y < g.h then (if alive_func b x y g then 1 else 0) else 0) = 1
  split
  · split
    · exact Or.inr rfl
    · exact Or.inl rfl
  · exact Or.inl rfl

lemma setCell_binary (g : Grid) (i j : Nat) (v : Int) (hv : v = 0 ∨ v = 1)
    (hg : g.isBinary = true) : (g.setCell i j v).isBinary = true := by
  rw [isBinary_iff]
  intro x hx y hy
  show (if x = i ∧ y = j then v else g.cells x y) = 0 ∨
    (if x = i ∧ y = j then v else g.cells x y) = 1
  split
  · exact hv
  · exact (isBinary_iff g).mp hg x hx y hy

lemma clearAll_binary (g : Grid) : g.clearAll.isBinary = true := by
  rw [isBinary_iff]
  intro x hx y hy
  show (if x < g.w ∧ y < g.h then 0 else g.cells x y) = 0 ∨
    (if x < g.w ∧ y < g.h then 0 else g.cells x y) = 1
  rw [if_pos ⟨hx, hy⟩]
  exact Or.inl rfl

/-- The invariant of claim C8: both generations keep the construction
shape and stay binary. -/
def GolInv (W H : Nat) (s : GameOfLife) : Prop :=
  s.cur_state.w = W ∧ s.cur_state.h = H ∧
    s.last_state.w = W ∧ s.last_state.h = H ∧
    s.cur_state.isBinary = true ∧ s.last_state.isBinary = true

lemma applyOp_inv (W H : Nat) (s : GameOfLife) (op : EngineOp)
    (h : GolInv W H s) : GolInv W H (applyOp s op) := by
  obtain ⟨h1, h2, h3, h4, h5, h6⟩ := h
  cases op with
  | step =>
      exact ⟨h1, h2, h1, h2, by rw [show (applyOp s EngineOp.step).cur_state
        = nextGrid s.cur_state s.wrapping from rfl]; exact nextGrid_binary _ _, h5⟩
  | set x y alive =>
      refine ⟨h1, h2, h3, h4, ?_, h6⟩
      show (s.cur_state.setCell x y (if alive then 1 else 0)).isBinary = true
      refine setCell_binary _ _ _ _ ?_ h5
      cases alive
      · exact Or.inl rfl
      · exact Or.inr rfl
  | clearOp => exact ⟨h1, h2, h3, h4, clearAll_binary _, h6⟩

lemma applyOps_inv (W H : Nat) (ops : List EngineOp) :
    ∀ s : GameOfLife, GolInv W H s → GolInv W H (applyOps s ops) := by
  induction ops with
  | nil => exact fun s h => h
  | cons op ops ih =>
      intro s h
      exact ih (applyOp s op) (applyOp_inv W H s op h)

/-- C8: starting from a binary W x H grid, any sequence of `step()`,
single-cell writes, and `clear()` keeps every in-bounds cell of both
the current and the previous generation exactly 0 or 1, and keeps both
generations at the construction shape W x H. -/
theorem engine_binary_invariant (initial : Grid) (wrapping : Bool)
    (ops : List EngineOp) (h : initial.isBinary = true) :
    GolInv initial.w initial.h (applyOps (GameOfLife.init initial wrapping) ops) :=
  applyOps_inv initial.w initial.h ops (GameOfLife.init initial wrapping)
    ⟨rfl, rfl, rfl, rfl, h, h⟩

/-- C8 witness: the invariant holds after a concrete operation
sequence on the blinker engine. -/
theorem engine_binary_invariant_witness :
    blinkerH.isBinary = true ∧
      GolInv blinkerH.w blinkerH.h
        (applyOps (GameOfLife.init blinkerH true)
          [EngineOp.set 0 0 true, EngineOp.step, EngineOp.clearOp, EngineOp.step]) :=
  ⟨by decide, engine_binary_invariant blinkerH true
    [EngineOp.set 0 0 true, EngineOp.step, EngineOp.clearOp, EngineOp.step] (by decide)⟩

lemma nextH : nextGrid blinkerH true = blinkerV := by
  refine Grid.ext_cells _ _ rfl rfl (funext fun x => funext fun y => ?_)
  by_cases hx : x < 5
  · by_cases hy : y < 5
    · interval_cases x <;> interval_cases y <;> decide
    · have h1 : ¬ (x < 5 ∧ y < 5) := by tauto
      have h2 : ¬ (x < 5 ∧ y < 5 ∧ x = 2 ∧ (y = 1 ∨ y = 2 ∨ y = 3)) := by tauto
      show (if x < 5 ∧ y < 5 then (if alive_func true x y blinkerH then 1 else 0) else 0)
          = (if x < 5 ∧ y < 5 ∧ x = 2 ∧ (y = 1 ∨ y = 2 ∨ y = 3) then (1 : Int) else 0)
      rw [if_neg h1, if_neg h2]
  · have h1 : ¬ (x < 5 ∧ y < 5) := by tauto
    have h2 : ¬ (x < 5 ∧ y < 5 ∧ x = 2 ∧ (y = 1 ∨ y = 2 ∨ y = 3)) := by tauto
    show (if x < 5 ∧ y < 5 then (if alive_func true x y blinkerH then 1 else 0) else 0)
        = (if x < 5 ∧ y < 5 ∧ x = 2 ∧ (y = 1 ∨ y = 2 ∨ y = 3) then (1 : Int) else 0)
    rw [if_neg h1, if_neg h2]

lemma nextV : nextGrid blinkerV true = blinkerH := by
  refine Grid.ext_cells _ _ rfl rfl (funext fun x => funext fun y => ?_)
  by_cases hx : x < 5
  · by_cases hy : y < 5
    · interval_cases x <;> interval_cases y <;> decide
    · have h1 : ¬ (x < 5 ∧ y < 5) := by tauto
      have h2 : ¬ (x < 5 ∧ y < 5 ∧ y = 2 ∧ (x = 1 ∨ x = 2 ∨ x = 3)) := by tauto
      show (if x < 5 ∧ y < 5 then (if alive_func true x y blinkerV then 1 else 0) else 0)
          = (if x < 5 ∧ y < 5 ∧ y = 2 ∧ (x = 1 ∨ x = 2 ∨ x = 3) then (1 : Int) else 0)
      rw [if_neg h1, if_neg h2]
  · have h1 : ¬ (x < 5 ∧ y < 5) := by tauto
    have h2 : ¬ (x < 5 ∧ y < 5 ∧ y = 2 ∧ (x = 1 ∨ x = 2 ∨ x = 3)) := by tauto
    show (if x < 5 ∧ y < 5 then (if alive_func true x y blinkerV then 1 else 0) else 0)
        = (if x < 5 ∧ y < 5 ∧ y = 2 ∧ (x = 1 ∨ x = 2 ∨ x = 3) then (1 : Int) else 0)
    rw [if_neg h1, if_neg h2]

lemma blinker_evolution (n : Nat) :
    (stepN n blinkerS0).wrapping = true ∧
      (stepN n blinkerS0).cur_state = (if n % 2 = 0 then blinkerH else blinkerV) := by
  induction n with
  | zero => exact ⟨rfl, by rw [if_pos (by omega)]; rfl⟩
  | succ n ih =>
      refine ⟨ih.1, ?_⟩
      have hcur : (stepN (n + 1) blinkerS0).cur_state
          = nextGrid (stepN n blinkerS0).cur_state (stepN n blinkerS0).wrapping := rfl
      rw [hcur, ih.1, ih.2]
      by_cases h2 : n % 2 = 0
      · rw [if_pos h2, if_neg (by omega), nextH]
      · rw [if_neg h2, if_pos (by omega), nextV]

/-- C6: on the 5x5 WRAPPING engine seeded with ALIVE exactly at (1,2),
(2,2), (3,2), one step yields ALIVE exactly at (2,1), (2,2), (2,3), a
second step restores the original grid, and no step of the perpetual
period-2 oscillation ever reports static. -/
theorem blinker_period_two :
    aliveCells blinkerS0.cur_state = [(1, 2), (2, 2), (3, 2)] ∧
      aliveCells (stepN 1 blinkerS0).cur_state = [(2, 1), (2, 2), (2, 3)] ∧
      (stepN 2 blinkerS0).cur_state = blinkerS0.cur_state ∧
      ∀ n : Nat, (get_next_state (stepN n blinkerS0) true).2 = false := by
  refine ⟨by decide, ?_, ?_, ?_⟩
  · rw [(blinker_evolution 1).2, if_neg (by omega)]
    decide
  · rw [(blinker_evolution 2).2, if_pos (by omega)]
    rfl
  · intro n
    have hflag : (get_next_state (stepN n blinkerS0) true).2
        = Grid.eqOn (stepN n blinkerS0).cur_state
            (nextGrid (stepN n blinkerS0).cur_state (stepN n blinkerS0).wrapping) := rfl
    rw [hflag, (blinker_evolution n).1, (blinker_evolution n).2]
    by_cases h2 : n % 2 = 0
    · rw [if_pos h2, nextH]
      decide
    · rw [if_neg h2, nextV]
      decide

lemma offsets8_bounds : ∀ d ∈ offsets8, -1 ≤ d.1 ∧ d.1 ≤ 1 ∧ -1 ≤ d.2 ∧ d.2 ≤ 1 := by
  decide

lemma sliceIdx_lt (n : Nat) (a b : Int) : ∀ i ∈ sliceIdx n a b, i < n := by
  intro i hi
  simp only [sliceIdx] at hi
  rw [List.mem_range'_1] at hi
  split_ifs at hi <;> omega

lemma windowSum_dead (g : Grid) (x y : Nat)
    (hz : ∀ a b : Nat, a < g.w → b < g.h → g.cells a b = 0) :
    windowSum g x y = 0 := by
  unfold windowSum
  apply List.sum_eq_zero
  intro t ht
  rw [List.mem_map] at ht
  obtain ⟨i, hi, rfl⟩ := ht
  apply List.sum_eq_zero
  intro t2 ht2
  rw [List.mem_map] at ht2
  obtain ⟨j, hj, rfl⟩ := ht2
  exact hz i j (sliceIdx_lt _ _ _ i hi) (sliceIdx_lt _ _ _ j hj)

lemma adjIdx_lt (n x : Nat) (d : Int) (hx : x < n) (_hd1 : -1 ≤ d) (_hd2 : d ≤ 1) :
    npIdx n (if (n : Int) ≤ (x : Int) + d then 0 else (x : Int) + d) < n := by
  unfold npIdx
  by_cases h1 : (n : Int) ≤ (x : Int) + d
  · rw [if_pos h1, if_neg (by omega)]
    omega
  · rw [if_neg h1]
    by_cases h2 : (x : Int) + d < 0
    · rw [if_pos h2]
      omega
    · rw [if_neg h2]
      omega

lemma wrapRead_dead (g : Grid) (x y : Nat) (hx : x < g.w) (hy : y < g.h)
    (hz : ∀ a b : Nat, a < g.w → b < g.h → g.cells a b = 0) (d : Int × Int)
    (hd : d ∈ offsets8) : wrapRead g x y d = 0 := by
  have hb := offsets8_bounds d hd
  show g.cells (npIdx g.w (if (g.w : Int) ≤ (x : Int) + d.1 then 0 else (x : Int) + d.1))
      (npIdx g.h (if (g.h : Int) ≤ (y : Int) + d.2 then 0 else (y : Int) + d.2)) = 0
  exact hz _ _ (adjIdx_lt g.w x d.1 hx hb.1 hb.2.1)
    (adjIdx_lt g.h y d.2 hy hb.2.2.1 hb.2.2.2)

lemma foldl_count_false (l : List (Int × Int)) (p : Int × Int → Bool) (c : Int)
    (h : ∀ d ∈ l, p d = false) :
    l.foldl (fun acc d => if p d then acc + 1 else acc) c = c := by
  induction l generalizing c with
  | nil => rfl
  | cons d l ih =>
      rw [List.foldl_cons, h d (List.mem_cons_self d l), if_neg Bool.false_ne_true]
      exact ih c (fun e he => h e (List.mem_cons_of_mem d he))

lemma alive_func_dead (g : Grid) (wr : Bool) (x y : Nat)
    (hx : x < g.w) (hy : y < g.h)
    (hz : ∀ a b : Nat, a < g.w → b < g.h → g.cells a b = 0) :
    alive_func wr x y g = false := by
  have hcell : g.cells x y = 0 := hz x y hx hy
  have hw : windowSum g x y = 0 := windowSum_dead g x y hz
  cases wr
  · show is_alive x y g = false
    unfold is_alive
    rw [hcell, hw]
    decide
  · show is_alive_wrapping x y g = false
    unfold is_alive_wrapping wrapNeighborCount
    by_cases hint : 0 < x ∧ x < g.w - 1 ∧ 0 < y ∧ y < g.h - 1
    · rw [if_pos hint, hcell, hw]
      decide
    · rw [if_neg hint, hcell,
        foldl_count_false offsets8 (fun d => wrapRead g x y d == 1) 0 ?_]
      · decide
      · intro d hd
        show (wrapRead g x y d == 1) = false
        rw [wrapRead_dead g x y hx hy hz d hd]
        rfl

/-- C1 (amended): for every engine state, `clear()` immediately
followed by `step()` returns static = true: `step()` overwrites the
previous-generation snapshot with the cleared current generation
before comparing, so the pre-clear values play no role, and the
all-DEAD grid is a fixed point. -/
theorem clear_then_step_static (s : GameOfLife) :
    (get_next_state (GameOfLife.clear s) true).2 = true := by
  have hflag : (get_next_state (GameOfLife.clear s) true).2
      = Grid.eqOn s.cur_state.clearAll
          (nextGrid s.cur_state.clearAll s.wrapping) := rfl
  rw [hflag, eqOn_eq_true_iff]
  refine ⟨rfl, rfl, ?_⟩
  intro x hx y hy
  have hz : ∀ a b : Nat, a < s.cur_state.clearAll.w → b < s.cur_state.clearAll.h →
      s.cur_state.clearAll.cells a b = 0 := by
    intro a b ha hb
    show (if a < s.cur_state.w ∧ b < s.cur_state.h then 0 else s.cur_state.cells a b) = 0
    exact if_pos ⟨ha, hb⟩
  have hdead := alive_func_dead s.cur_state.clearAll s.wrapping x y hx hy hz
  have hl : s.cur_state.clearAll.cells x y = 0 := hz x y hx hy
  have hr : (nextGrid s.cur_state.clearAll s.wrapping).cells x y = 0 := by
    show (if x < s.cur_state.clearAll.w ∧ y < s.cur_state.clearAll.h
        then (if alive_func s.wrapping x y s.cur_state.clearAll then 1 else 0)
        else 0) = 0
    rw [if_pos ⟨hx, hy⟩, hdead, if_neg Bool.false_ne_true]
  rw [hl, hr]

lemma emod_self_toNat (n : Nat) : (((n : Int)) % (n : Int)).toNat = 0 := by
  rw [Int.emod_self]
  rfl

lemma adjIdx_emod (n x : Nat) (d : Int) (hx : x < n) (hd1 : -1 ≤ d) (hd2 : d ≤ 1) :
    npIdx n (if (n : Int) ≤ (x : Int) + d then 0 else (x : Int) + d)
      = (((x : Int) + d) % (n : Int)).toNat := by
  by_cases h1 : (n : Int) ≤ (x : Int) + d
  · have ht : (x : Int) + d = (n : Int) := by omega
    rw [if_pos h1, ht, emod_self_toNat]
    unfold npIdx
    rw [if_neg (by omega)]
    rfl
  · rw [if_neg h1]
    by_cases h2 : (x : Int) + d < 0
    · have ht : (x : Int) + d = -1 := by omega
      rw [ht]
      unfold npIdx
      rw [if_pos (by omega)]
      have hmod : (-1 : Int) % (n : Int) = (n : Int) - 1 := by
        have h3 : (-1 : Int) = ((n : Int) - 1) + (n : Int) * (-1) := by ring
        rw [h3, Int.add_mul_emod_self_left, Int.emod_eq_of_lt (by omega) (by omega)]
      rw [hmod]
      omega
    · rw [Int.emod_eq_of_lt (by omega) (by omega)]
      unfold npIdx
      rw [if_neg h2]

lemma wrapRead_eq_torus (g : Grid) (x y : Nat) (hx : x < g.w) (hy : y < g.h)
    (d : Int × Int) (hd : d ∈ offsets8) :
    wrapRead g x y d
      = g.cells ((((x : Int) + d.1) % (g.w : Int)).toNat)
          ((((y : Int) + d.2) % (g.h : Int)).toNat) := by
  have hb := offsets8_bounds d hd
  show g.cells (npIdx g.w (if (g.w : Int) ≤ (x : Int) + d.1 then 0 else (x : Int) + d.1))
      (npIdx g.h (if (g.h : Int) ≤ (y : Int) + d.2 then 0 else (y : Int) + d.2)) = _
  rw [adjIdx_emod g.w x d.1 hx hb.1 hb.2.1, adjIdx_emod g.h y d.2 hy hb.2.2.1 hb.2.2.2]

lemma foldl_count_eq_sum (l : List (Int × Int)) (f f2 : Int × Int → Int) (c : Int)
    (h : ∀ d ∈ l, f d = f2 d ∧ (f d = 0 ∨ f d = 1)) :
    l.foldl (fun acc d => if f d == 1 then acc + 1 else acc) c = c + (l.map f2).sum := by
  induction l generalizing c with
  | nil => simp
  | cons d l ih =>
      obtain ⟨hfg, hbin⟩ := h d (List.mem_cons_self d l)
      have hrest : ∀ e ∈ l, f e = f2 e ∧ (f e = 0 ∨ f e = 1) :=
        fun e he => h e (List.mem_cons_of_mem d he)
      rw [List.foldl_cons, List.map_cons, List.sum_cons]
      rcases hbin with h0 | h1
      · rw [show (f d == 1) = false by rw [h0]; rfl, if_neg Bool.false_ne_true,
          ih c hrest, ← hfg, h0, zero_add]
      · rw [show (f d == 1) = true by rw [h1]; rfl, if_pos rfl,
          ih (c + 1) hrest, ← hfg, h1]
        ring

lemma sliceIdx_interior (n x : Nat) (h1 : 0 < x) (h2 : x < n - 1) :
    sliceIdx n ((x : Int) - 1) ((x : Int) + 2) = [x - 1, x, x + 1] := by
  unfold sliceIdx
  rw [if_neg (by omega), if_neg (by omega)]
  have ha : min ((x : Int) - 1).toNat n = x - 1 := by omega
  have hb : min ((x : Int) + 2).toNat n = x + 2 := by omega
  rw [ha, hb]
  show List.range' (x - 1) (x + 2 - (x - 1)) = [x - 1, x, x + 1]
  rw [show x + 2 - (x - 1) = 3 from by omega,
    show List.range' (x - 1) 3 = [x - 1, x - 1 + 1, x - 1 + 1 + 1] from rfl,
    show x - 1 + 1 = x from by omega]

lemma windowSum_interior (g : Grid) (x y : Nat)
    (hx1 : 0 < x) (hx2 : x < g.w - 1) (hy1 : 0 < y) (hy2 : y < g.h - 1) :
    windowSum g x y =
      g.cells (x - 1) (y - 1) + g.cells (x - 1) y + g.cells (x - 1) (y + 1)
        + g.cells x (y - 1) + g.cells x y + g.cells x (y + 1)
        + g.cells (x + 1) (y - 1) + g.cells (x + 1) y + g.cells (x + 1) (y + 1) := by
  unfold windowSum
  rw [sliceIdx_interior g.w x hx1 hx2, sliceIdx_interior g.h y hy1 hy2]
  simp only [List.map_cons, List.map_nil, List.sum_cons, List.sum_nil]
  ring

/-- C3: under the WRAPPING policy the implemented neighbour count (the
3x3 windowed fast path for interior cells together with the explicit
eight-direction border loop) agrees, on every binary grid and every
in-bounds cell, with the uniform toroidal reference count that wraps
every offset with non-negative modulo; in particular a single ALIVE
cell at (W-1, H-1) is counted as a neighbour of the corner (0, 0). -/
theorem wrapping_count_eq_torus :
    (∀ (g : Grid) (x y : Nat), g.isBinary = true → x < g.w → y < g.h →
        wrapNeighborCount x y g = torusCount g x y) ∧
      wrapNeighborCount 0 0 cornerGrid = 1 := by
  constructor
  · intro g x y hbin hx hy
    unfold wrapNeighborCount
    by_cases hint : 0 < x ∧ x < g.w - 1 ∧ 0 < y ∧ y < g.h - 1
    · rw [if_pos hint]
      obtain ⟨hx1, hx2, hy1, hy2⟩ := hint
      rw [windowSum_interior g x y hx1 hx2 hy1 hy2]
      have ht : torusCount g x y =
          g.cells ((((x : Int) + -1) % (g.w : Int)).toNat) ((((y : Int) + -1) % (g.h : Int)).toNat)
          + (g.cells ((((x : Int) + -1) % (g.w : Int)).toNat) ((((y : Int) + 0) % (g.h : Int)).toNat)
          + (g.cells ((((x : Int) + -1) % (g.w : Int)).toNat) ((((y : Int) + 1) % (g.h : Int)).toNat)
          + (g.cells ((((x : Int) + 0) % (g.w : Int)).toNat) ((((y : Int) + -1) % (g.h : Int)).toNat)
          + (g.cells ((((x : Int) + 0) % (g.w : Int)).toNat) ((((y : Int) + 1) % (g.h : Int)).toNat)
          + (g.cells ((((x : Int) + 1) % (g.w : Int)).toNat) ((((y : Int) + -1) % (g.h : Int)).toNat)
          + (g.cells ((((x : Int) + 1) % (g.w : Int)).toNat) ((((y : Int) + 0) % (g.h : Int)).toNat)
          + (g.cells ((((x : Int) + 1) % (g.w : Int)).toNat) ((((y : Int) + 1) % (g.h : Int)).toNat)
          + 0))))))) := rfl
      have ex1 : (((x : Int) + -1) % (g.w : Int)).toNat = x - 1 := by
        rw [Int.emod_eq_of_lt (by omega) (by omega)]
        omega
      have ex2 : (((x : Int) + 0) % (g.w : Int)).toNat = x := by
        rw [Int.emod_eq_of_lt (by omega) (by omega)]
        omega
      have ex3 : (((x : Int) + 1) % (g.w : Int)).toNat = x + 1 := by
        rw [Int.emod_eq_of_lt (by omega) (by omega)]
        omega
      have ey1 : (((y : Int) + -1) % (g.h : Int)).toNat = y - 1 := by
        rw [Int.emod_eq_of_lt (by omega) (by omega)]
        omega
      have ey2 : (((y : Int) + 0) % (g.h : Int)).toNat = y := by
        rw [Int.emod_eq_of_lt (by omega) (by omega)]
        omega
      have ey3 : (((y : Int) + 1) % (g.h : Int)).toNat = y + 1 := by
        rw [Int.emod_eq_of_lt (by omega) (by omega)]
        omega
      rw [ht, ex1, ex2, ex3, ey1, ey2, ey3]
      ring
    · rw [if_neg hint]
      have hcond : ∀ d ∈ offsets8, wrapRead g x y d
            = g.cells ((((x : Int) + d.1) % (g.w : Int)).toNat)
                ((((y : Int) + d.2) % (g.h : Int)).toNat)
          ∧ (wrapRead g x y d = 0 ∨ wrapRead g x y d = 1) := by
        intro d hd
        have hb := offsets8_bounds d hd
        refine ⟨wrapRead_eq_torus g x y hx hy d hd, ?_⟩
        show g.cells (npIdx g.w (if (g.w : Int) ≤ (x : Int) + d.1 then 0
              else (x : Int) + d.1))
            (npIdx g.h (if (g.h : Int) ≤ (y : Int) + d.2 then 0
              else (y : Int) + d.2)) = 0 ∨ _ = 1
        exact (isBinary_iff g).mp hbin _ (adjIdx_lt g.w x d.1 hx hb.1 hb.2.1)
          _ (adjIdx_lt g.h y d.2 hy hb.2.2.1 hb.2.2.2)
      have hsum := foldl_count_eq_sum offsets8 (fun d => wrapRead g x y d)
        (fun d => g.cells ((((x : Int) + d.1) % (g.w : Int)).toNat)
          ((((y : Int) + d.2) % (g.h : Int)).toNat)) 0 hcond
      refine hsum.trans ?_
      rw [zero_add]
      rfl
  · decide

/-- C3 witness: the counts agree at the border cell (0, 0) of the
blinker grid. -/
theorem wrapping_count_eq_torus_witness :
    blinkerH.isBinary = true ∧
      wrapNeighborCount 0 0 blinkerH = torusCount blinkerH 0 0 :=
  ⟨by decide,
    wrapping_count_eq_torus.1 blinkerH 0 0 (by decide) (by decide) (by decide)⟩

lemma npResolve_none_iff (n : Nat) (k : Int) :
    npResolve n k = none ↔ (k < -(n : Int) ∨ (n : Int) ≤ k) := by
  unfold npResolve
  split_ifs with h1 h2 <;> simp <;> omega

lemma npResolve_some (n : Nat) (k : Int) (h1 : -(n : Int) ≤ k) (h2 : k < (n : Int)) :
    npResolve n k = some (npIdx n k) := by
  unfold npResolve npIdx
  split_ifs with ha hb hc hd <;> first | rfl | omega

/-- C5 (amended): an out-of-range write with `x ≥ W`, `x < -W`,
`y ≥ H` or `y < -H` raises `IndexError` and leaves the grid unchanged,
but a negative coordinate in `[-W, -1]` (resp. `[-H, -1]`) is silently
mapped by numpy negative indexing to the opposite edge and does mutate
that cell. -/
theorem set_cell_bounds_behavior (g : Grid) (x y v : Int) :
    (((g.w : Int) ≤ x ∨ x < -(g.w : Int) ∨ (g.h : Int) ≤ y ∨ y < -(g.h : Int)) →
        setCellChecked g x y v = none) ∧
      ((-(g.w : Int) ≤ x ∧ x < (g.w : Int) ∧ -(g.h : Int) ≤ y ∧ y < (g.h : Int)) →
        setCellChecked g x y v = some (g.setCell (npIdx g.w x) (npIdx g.h y) v)) := by
  constructor
  · intro h
    have hnone : npResolve g.w x = none ∨ npResolve g.h y = none := by
      rcases h with h | h | h | h
      · exact Or.inl ((npResolve_none_iff _ _).mpr (Or.inr h))
      · exact Or.inl ((npResolve_none_iff _ _).mpr (Or.inl h))
      · exact Or.inr ((npResolve_none_iff _ _).mpr (Or.inr h))
      · exact Or.inr ((npResolve_none_iff _ _).mpr (Or.inl h))
    unfold setCellChecked
    rcases hA : npResolve g.w x with _ | i
    · rcases hB : npResolve g.h y with _ | j <;> rfl
    · rcases hB : npResolve g.h y with _ | j
      · rfl
      · exfalso
        rcases hnone with h0 | h0
        · rw [hA] at h0
          exact Option.noConfusion h0
        · rw [hB] at h0
          exact Option.noConfusion h0
  · rintro ⟨h1, h2, h3, h4⟩
    unfold setCellChecked
    rw [npResolve_some g.w x h1 h2, npResolve_some g.h y h3 h4]

/-- C5 amended-claim witness: on a 3x3 grid, the write at x = 5 fails,
while the write at (-2, 1) silently lands on cell (1, 1). -/
theorem set_cell_bounds_behavior_witness :
    setCellChecked zero3 5 0 1 = none ∧
      setCellChecked zero3 (-2) 1 7 = some (zero3.setCell 1 1 7) :=
  ⟨(set_cell_bounds_behavior zero3 5 0 1).1 (Or.inl (by decide)),
    (set_cell_bounds_behavior zero3 (-2) 1 7).2 ⟨by decide, by decide, by decide, by decide⟩⟩
